import Mathlib

/-!
# zmk-flasher: the coordinator (`views/flash-view.go`) and the `flash` command (`cmd/flash.go`)

A shallow embedding of

* `FlashView.Update`, `FlashView.CanToggleKeyboardHalf`,
  `FlashView.updateKeyboardHalfIsSelected` and `CopyFileCmd` of `views/flash-view.go`;
* `run` and the `Run` handler of `flashCmd` of `cmd/flash.go`.

Conventions of the embedding.

* Go strings are Lean `String`s; `+` is `++`.
* A Go `error` value is a `GoError`; a possibly-nil `error` is an `Option GoError`.
* A `tea.Msg` is a `Msg μ`: the dynamic types that `FlashView.Update` and `CopyFileCmd`
  distinguish are constructors, every other dynamic type is `Msg.other`.
* A possibly-nil `tea.Cmd` produced by a sub-view is an `Option κ`; the command returned by
  `FlashView.Update` is a `Cmd κ` (`tea.Quit` or `tea.Batch(cmds...)`).
* The sub-views `BlockDeviceCmdsView` and `KeyboardHalfView` are declared outside the files
  embedded here; their methods are the fields of the parameter `Views`.
* `files.CopyFile`, `files.GetFilesWithNameContaining`, `os.Stat` and the run of the
  bubbletea program are parameters as well.
-/

namespace ZmkFlasher

/-! ## Go values -/

/-- Go `error` values. `leaf text` is any error that is not built by `errors.Join`
(`errors.New(text)`, `fmt.Errorf(text)`, an error of the operating system), with `text` the
result of its `Error()` method; `join first second` is `errors.Join(first, second)` for two
non-nil errors. -/
inductive GoError where
  | leaf (text : String)
  | join (first second : GoError)
  deriving DecidableEq, Repr

/-- The `Error()` method: `errors.Join` separates the texts of its errors by a newline. -/
def GoError.Error : GoError → String
  | .leaf text => text
  | .join first second => first.Error ++ "\n" ++ second.Error

/-- The `Unwrap() []error` method of the value `errors.Join` builds: the joined errors.
Other errors have none here. -/
def GoError.Unwrap : GoError → List GoError
  | .leaf _ => []
  | .join first second => [first, second]

/-- Whether `sub` occurs in `s` as a contiguous block, by scanning the start positions from
left to right. -/
def containsChars (sub : List Char) : List Char → Bool
  | [] => sub.isEmpty
  | c :: rest => sub.isPrefixOf (c :: rest) || containsChars sub rest

/-- Go `strings.Contains(s, substr)`. -/
def strings.Contains (s substr : String) : Bool :=
  containsChars substr.data s.data

/-! ## Messages and commands -/

/-- The `tea.Msg` values, by dynamic type. `KeyMsg s` is a `tea.KeyMsg` whose `String()`
is `s`; `error e` is a message whose dynamic type implements `error`; `other m` is a message
of any other dynamic type (device-discovery and mount events among them). -/
inductive Msg (μ : Type) where
  | KeyMsg (s : String)
  | NextStepMsg
  | FileCopiedMsg
  | error (e : GoError)
  | other (m : μ)
  deriving DecidableEq, Repr

/-- The command `FlashView.Update` returns: `tea.Quit`, or `tea.Batch(cmds...)` of the
collected sub-view commands (`none` is a nil `tea.Cmd`). -/
inductive Cmd (κ : Type) where
  | Quit
  | Batch (cmds : List (Option κ))
  deriving DecidableEq, Repr

/-! ## The coordinator -/

/-- Type `KeyboardHalfRole`.
Modelled from the spec: the declaration of `KeyboardHalfRole` is not in the embedded files;
the spec gives it exactly the two values `Central` and `Peripheral`, the two constants
`flash-view.go` uses. -/
inductive KeyboardHalfRole where
  | Central
  | Peripheral
  deriving DecidableEq, Repr

/-- Method `KeyboardHalfRole.Toggle`.
Modelled from the spec: the method is not in the embedded files; the spec says the
toggle-focus key switches the focus to the other role. -/
def KeyboardHalfRole.Toggle : KeyboardHalfRole → KeyboardHalfRole
  | .Central => .Peripheral
  | .Peripheral => .Central

/-- The methods of the two sub-view types that `flash-view.go` calls. `B` is
`BlockDeviceCmdsView`, `K` is `KeyboardHalfView`. The `Update` methods return the new
model and a possibly-nil command; `NextStep` likewise. -/
structure Views (B K μ κ : Type) where
  blockDeviceUpdate : B → Msg μ → B × Option κ
  Update : K → Msg μ → K × Option κ
  NextStep : K → K × Option κ
  SetIsSelected : K → Bool → K
  CanUnselect : K → Bool

/-- The struct `FlashView`. -/
structure FlashView (B K : Type) where
  blockDeviceCmdsView : B
  centralKeyboardHalfView : K
  peripheralKeyboardHalfView : K
  selectedKeyboardHalf : KeyboardHalfRole
  dryRun : Bool
  deriving DecidableEq, Repr

variable {B K μ κ : Type}

/-- Method `FlashView.CanToggleKeyboardHalf`. -/
def FlashView.CanToggleKeyboardHalf (V : Views B K μ κ) (f : FlashView B K) : Bool :=
  V.CanUnselect f.centralKeyboardHalfView && V.CanUnselect f.peripheralKeyboardHalfView

/-- Method `FlashView.updateKeyboardHalfIsSelected`. -/
def FlashView.updateKeyboardHalfIsSelected (V : Views B K μ κ) (f : FlashView B K) :
    FlashView B K :=
  if f.selectedKeyboardHalf = .Central then
    { f with
      centralKeyboardHalfView := V.SetIsSelected f.centralKeyboardHalfView true
      peripheralKeyboardHalfView := V.SetIsSelected f.peripheralKeyboardHalfView false }
  else
    { f with
      centralKeyboardHalfView := V.SetIsSelected f.centralKeyboardHalfView false
      peripheralKeyboardHalfView := V.SetIsSelected f.peripheralKeyboardHalfView true }

/-- The statement `cmds = append(cmds, cmd)` under its guard `cmd != nil`. -/
def appendIfNotNil (cmds : List (Option κ)) (cmd : Option κ) : List (Option κ) :=
  if cmd.isSome then cmds ++ [cmd] else cmds

/-- The first part of `FlashView.Update` (up to the type switch): the message goes to the
device view, then to the peripheral half, then to the central half; each returned model is
stored and each non-nil command collected. -/
def FlashView.Update.fanOut (V : Views B K μ κ) (f : FlashView B K) (msg : Msg μ) :
    FlashView B K × List (Option κ) :=
  let cmds : List (Option κ) := []
  let r := V.blockDeviceUpdate f.blockDeviceCmdsView msg
  let cmds := appendIfNotNil cmds r.2
  let f := { f with blockDeviceCmdsView := r.1 }
  let r := V.Update f.peripheralKeyboardHalfView msg
  let cmds := appendIfNotNil cmds r.2
  let f := { f with peripheralKeyboardHalfView := r.1 }
  let r := V.Update f.centralKeyboardHalfView msg
  let cmds := appendIfNotNil cmds r.2
  let f := { f with centralKeyboardHalfView := r.1 }
  (f, cmds)

/-- How the type switch of `FlashView.Update` ends: with a `return` of its own, or by
falling through to the statements after it. -/
inductive Flow (B K κ : Type) where
  | returned (f : FlashView B K) (cmd : Cmd κ)
  | fallsThrough (f : FlashView B K) (cmds : List (Option κ))
  deriving DecidableEq, Repr

/-- The body shared by `case "enter"` and `case NextStepMsg`: `NextStep` on the half whose
role is `selectedKeyboardHalf`, its command appended unconditionally. -/
def FlashView.Update.nextStep (V : Views B K μ κ) (f : FlashView B K)
    (cmds : List (Option κ)) : FlashView B K × List (Option κ) :=
  if f.selectedKeyboardHalf = .Central then
    let r := V.NextStep f.centralKeyboardHalfView
    ({ f with centralKeyboardHalfView := r.1 }, cmds ++ [r.2])
  else
    let r := V.NextStep f.peripheralKeyboardHalfView
    ({ f with peripheralKeyboardHalfView := r.1 }, cmds ++ [r.2])

/-- The type switch of `FlashView.Update`, on the state the fan-out left. -/
def FlashView.Update.dispatch (V : Views B K μ κ) (f : FlashView B K)
    (cmds : List (Option κ)) (msg : Msg μ) : Flow B K κ :=
  match msg with
  | .KeyMsg s =>
    if s = "q" then
      .returned f .Quit
    else if s = "h" then
      if f.CanToggleKeyboardHalf V then
        .fallsThrough { f with selectedKeyboardHalf := f.selectedKeyboardHalf.Toggle } cmds
      else
        .fallsThrough f cmds
    else if s = "l" then
      if f.CanToggleKeyboardHalf V then
        .fallsThrough { f with selectedKeyboardHalf := f.selectedKeyboardHalf.Toggle } cmds
      else
        .fallsThrough f cmds
    else if s = "enter" then
      let r := FlashView.Update.nextStep V f cmds
      .fallsThrough r.1 r.2
    else
      .fallsThrough f cmds
  | .NextStepMsg =>
    let r := FlashView.Update.nextStep V f cmds
    .fallsThrough r.1 r.2
  | .error _ => .returned f .Quit
  | .FileCopiedMsg => .fallsThrough f cmds
  | .other _ => .fallsThrough f cmds

/-- Method `FlashView.Update`: fan-out, type switch, and unless the switch returned,
`updateKeyboardHalfIsSelected` and the batch of the collected commands. -/
def FlashView.Update (V : Views B K μ κ) (f : FlashView B K) (msg : Msg μ) :
    FlashView B K × Cmd κ :=
  let r := FlashView.Update.fanOut V f msg
  match FlashView.Update.dispatch V r.1 r.2 msg with
  | .returned f cmd => (f, cmd)
  | .fallsThrough f cmds => (f.updateKeyboardHalfIsSelected V, .Batch cmds)

/-- Function `CopyFileCmd`, as the function the returned command runs. `CopyFile` is
`files.CopyFile`, acting on a file-system state `σ` and returning its possibly-nil error;
the result is the message the command yields and the file-system state it leaves. -/
def CopyFileCmd {σ : Type} (CopyFile : String → String → σ → Option GoError × σ)
    (src dest : String) (dryRun : Bool) (fs : σ) : Msg μ × σ :=
  if dryRun then
    (.FileCopiedMsg, fs)
  else
    let r := CopyFile src dest fs
    match r.1 with
    | some err =>
      if !strings.Contains err.Error "input/output error" then
        (.error (.join (.leaf ("error copying file from " ++ src ++ " to " ++ dest)) err), r.2)
      else
        (.FileCopiedMsg, r.2)
    | none => (.FileCopiedMsg, r.2)

/-! ## The `flash` command -/

/-- The values cobra stores through the flag pointers of `cmd/flash.go` (the empty string
when a string flag is not given). -/
structure FlashFlags where
  leftBootloaderFile : String
  rightBootloaderFile : String
  leftAndRightBootloaderFile : String
  leftAndRightBootloaderZip : String
  leftControllerMountPoint : String
  rightControllerMountPoint : String
  dryRun : Bool
  deriving DecidableEq, Repr

/-- The arguments `run` passes to `views.NewFlashView`. -/
structure NewFlashViewArgs where
  centralBootloaderFile : String
  peripheralBootloaderFile : String
  centralMountPoint : Option String
  peripheralMountPoint : Option String
  dryRun : Bool
  deriving DecidableEq, Repr

/-- What `run` reads from outside: `files.GetFilesWithNameContaining(dir, name)` (on the
directory as `files.Unzip` left it), `os.IsNotExist` of the error of `os.Stat(path)`, and the
error of `tea.NewProgram(model).Run()` for the model built from the given arguments. -/
structure RunEnv where
  GetFilesWithNameContaining : String → String → Except GoError (List String)
  statIsNotExist : String → Bool
  runProgram : NewFlashViewArgs → Option GoError

/-- The guard `if *p == "" { p = nil }` on a flag pointer. -/
def nilIfEmpty (s : String) : Option String :=
  if s = "" then none else some s

/-- The four pointers `run` dereferences after its archive block. -/
structure Resolved where
  leftBootloaderFile : Option String
  rightBootloaderFile : Option String
  leftControllerMountPoint : Option String
  rightControllerMountPoint : Option String
  deriving DecidableEq, Repr

/-- What a call of `run` amounts to. -/
inductive RunOutcome where
  /-- Function `run` returned `err` before `views.NewFlashView` was called. -/
  | failed (err : GoError)
  /-- The model `views.NewFlashView(args)` was built and run; `run` returned `err`. -/
  | launched (args : NewFlashViewArgs) (err : Option GoError)
  /-- A nil flag pointer was dereferenced. -/
  | panicked
  deriving DecidableEq, Repr

/-- The error `run` returned, if it returned one. -/
def RunOutcome.returnedError : RunOutcome → Option GoError
  | .failed err => some err
  | .launched _ err => err
  | .panicked => none

/-- The part of `run` before the file-existence checks: the flag pointers are set to nil
where the flag is empty, a single file for both halves is copied to both pointers, and an
archive is listed for its "left" and its "right" file. (`files.EnsureDeleted` and
`files.Unzip` return nothing that `run` reads.) -/
def run.resolve (env : RunEnv) (flags : FlashFlags) : Except GoError Resolved :=
  let leftControllerMountPoint := nilIfEmpty flags.leftControllerMountPoint
  let rightControllerMountPoint := nilIfEmpty flags.rightControllerMountPoint
  let leftBootloaderFile := nilIfEmpty flags.leftBootloaderFile
  let rightBootloaderFile := nilIfEmpty flags.rightBootloaderFile
  let leftAndRightBootloaderFile := nilIfEmpty flags.leftAndRightBootloaderFile
  let leftAndRightBootloaderZip := nilIfEmpty flags.leftAndRightBootloaderZip
  let leftBootloaderFile :=
    if leftAndRightBootloaderFile.isSome then leftAndRightBootloaderFile else leftBootloaderFile
  let rightBootloaderFile :=
    if leftAndRightBootloaderFile.isSome then leftAndRightBootloaderFile else rightBootloaderFile
  match leftAndRightBootloaderZip with
  | some _ =>
    let dst := "./tmp"
    match env.GetFilesWithNameContaining dst "left" with
    | .error err => .error err
    | .ok leftFiles =>
      match env.GetFilesWithNameContaining dst "right" with
      | .error err => .error err
      | .ok rightFiles =>
        if leftFiles.length ≠ 1 then
          .error (.leaf "found more than one file name containing 'left' in the zip")
        else if rightFiles.length ≠ 1 then
          .error (.leaf "found more than one file name containing 'right' in the zip")
        else
          .ok { leftBootloaderFile := leftFiles[0]?
                rightBootloaderFile := rightFiles[0]?
                leftControllerMountPoint := leftControllerMountPoint
                rightControllerMountPoint := rightControllerMountPoint }
  | none =>
    .ok { leftBootloaderFile := leftBootloaderFile
          rightBootloaderFile := rightBootloaderFile
          leftControllerMountPoint := leftControllerMountPoint
          rightControllerMountPoint := rightControllerMountPoint }

/-- The rest of `run`: the two file-existence checks, then `views.NewFlashView` and the run
of the program. -/
def run.checkAndLaunch (env : RunEnv) (dryRun : Bool) (r : Resolved) : RunOutcome :=
  match r.leftBootloaderFile with
  | none => .panicked
  | some left =>
    if env.statIsNotExist left then
      .failed (.leaf "Left bootloader file does not exist")
    else
      match r.rightBootloaderFile with
      | none => .panicked
      | some right =>
        if env.statIsNotExist right then
          .failed (.leaf "Right bootloader file does not exist")
        else
          let args : NewFlashViewArgs :=
            { centralBootloaderFile := left
              peripheralBootloaderFile := right
              centralMountPoint := r.leftControllerMountPoint
              peripheralMountPoint := r.rightControllerMountPoint
              dryRun := dryRun }
          .launched args (env.runProgram args)

/-- Function `run` of `cmd/flash.go`. -/
def run (env : RunEnv) (flags : FlashFlags) : RunOutcome :=
  match run.resolve env flags with
  | .error err => .failed err
  | .ok r => run.checkAndLaunch env flags.dryRun r

/-- What the operator can observe of the `Run` handler of `flashCmd`: whether the program
was shown (and with which arguments), and the error the handler printed or handed back to
cobra, if any. -/
inductive HandlerOutcome where
  | completed (launched : Option NewFlashViewArgs) (reported : Option GoError)
  | panicked
  deriving DecidableEq, Repr

/-- The `Run` handler of `flashCmd`: `func(cmd, args) { run() }`. The handler has no
result and the value of `run()` is dropped. -/
def flashCmd.Run (env : RunEnv) (flags : FlashFlags) : HandlerOutcome :=
  match run env flags with
  | .failed _ => .completed none none
  | .launched args _ => .completed (some args) none
  | .panicked => .panicked

/-! ## Reading aids for the statements -/

/-- The advance triggers: the key "enter" and `NextStepMsg`. -/
def Msg.isAdvance : Msg μ → Bool
  | .KeyMsg s => s = "enter"
  | .NextStepMsg => true
  | _ => false

/-- The toggle-focus keys: "h" and "l". -/
def Msg.isToggleKey : Msg μ → Bool
  | .KeyMsg s => s = "h" || s = "l"
  | _ => false

/-- The messages on which the type switch of `FlashView.Update` returns by itself: the key
"q" and the errors. -/
def Msg.endsUpdate : Msg μ → Bool
  | .KeyMsg s => s = "q"
  | .error _ => true
  | _ => false

/-- The sub-views instrumented with a log: every model carries the list of the messages its
`Update` was called with, oldest first; the other methods leave the log alone. -/
def Views.logging (V : Views B K μ κ) : Views (B × List (Msg μ)) (K × List (Msg μ)) μ κ where
  blockDeviceUpdate b msg :=
    (((V.blockDeviceUpdate b.1 msg).1, b.2 ++ [msg]), (V.blockDeviceUpdate b.1 msg).2)
  Update k msg := (((V.Update k.1 msg).1, k.2 ++ [msg]), (V.Update k.1 msg).2)
  NextStep k := (((V.NextStep k.1).1, k.2), (V.NextStep k.1).2)
  SetIsSelected k b := (V.SetIsSelected k.1 b, k.2)
  CanUnselect k := V.CanUnselect k.1

/-! ## Sub-views to run the coordinator on

`KeyboardHalfView` and `BlockDeviceCmdsView` are declared in files that are not embedded
here. The statements below hold for every `Views`; the definitions of this section give one
`Views` to evaluate them on. -/

/-- The struct `platform.BlockDevice` of `platform/os-operations.go`. -/
structure BlockDevice where
  UUID : String
  Name : String
  Label : String
  MountPoints : List String
  deriving DecidableEq, Repr

/-- The states of a half workflow.
Modelled from the spec: the state of `KeyboardHalfView`, which is not in the embedded files;
the spec lists `AwaitingDevice`, `AwaitingMount`, `ReadyToCopy`, `Copying`, `Done` and
`Failed(reason)`. -/
inductive HalfWorkflowState where
  | AwaitingDevice
  | AwaitingMount
  | ReadyToCopy
  | Copying
  | Done
  | Failed (reason : String)
  deriving DecidableEq, Repr

/-- The events of the discovery layer.
Modelled from the spec: the message types of the device views, which are not in the embedded
files; the spec has a discovery-changed event carrying the full new snapshot, the operator
confirming exactly one device for a role, and a mount-completed event carrying the device
with its mount points. -/
inductive DeviceMsg where
  | discoveryChanged (devices : List BlockDevice)
  | deviceConfirmed (role : KeyboardHalfRole) (device : BlockDevice)
  | mountCompleted (role : KeyboardHalfRole) (device : BlockDevice)
  deriving DecidableEq, Repr

/-- The asynchronous tasks the sub-views launch.
Modelled from the spec: the commands of the sub-views, which are not in the embedded files;
the spec has the next poll of the device provider, a mount request and the whole-file copy
(`CopyFileCmd`). -/
inductive FlashTask where
  | poll
  | mount (device : BlockDevice)
  | copy (src dest : String) (dryRun : Bool)
  deriving DecidableEq, Repr

/-- The struct `KeyboardHalfView`.
Modelled from the spec: the struct is not in the embedded files; the spec gives a half
workflow its role, its source file, an optional pre-supplied mount point, the dry-run flag
and its state; the matched device and the focus mark are the data its operations need. -/
structure KeyboardHalfView where
  role : KeyboardHalfRole
  bootloaderFile : String
  mountPoint : Option String
  dryRun : Bool
  state : HalfWorkflowState
  device : Option BlockDevice
  isSelected : Bool
  deriving DecidableEq, Repr

/-- Function `NewKeyboardHalfView`.
Modelled from the spec: the function is not in the embedded files; a workflow is created in
`AwaitingDevice` with its role, source file, mount point and dry-run flag fixed. -/
def NewKeyboardHalfView (role : KeyboardHalfRole) (bootloaderFile : String)
    (mountPoint : Option String) (dryRun : Bool) : KeyboardHalfView :=
  { role := role, bootloaderFile := bootloaderFile, mountPoint := mountPoint, dryRun := dryRun
    state := .AwaitingDevice, device := none, isSelected := false }

/-- Where a half workflow copies to: the pre-supplied mount point, else the first mount
point of the matched device.
Modelled from the spec: the copy goes "into the confirmed mount point". -/
def KeyboardHalfView.dest (k : KeyboardHalfView) : String :=
  match k.mountPoint with
  | some p => p
  | none => ((k.device.bind fun d => d.MountPoints.head?).getD "")

/-- Method `KeyboardHalfView.NextStep`.
Modelled from the spec: the method is not in the embedded files; it is the `advance()`
operation of the spec's half workflow. -/
def KeyboardHalfView.NextStep (k : KeyboardHalfView) : KeyboardHalfView × Option FlashTask :=
  match k.state with
  | .AwaitingDevice =>
    match k.mountPoint with
    | some _ => ({ k with state := .ReadyToCopy }, none)
    | none =>
      match k.device with
      | none => (k, none)
      | some d =>
        if d.MountPoints.isEmpty then ({ k with state := .AwaitingMount }, some (.mount d))
        else ({ k with state := .ReadyToCopy }, none)
  | .AwaitingMount => (k, none)
  | .ReadyToCopy => ({ k with state := .Copying }, some (.copy k.bootloaderFile k.dest k.dryRun))
  | .Copying => (k, none)
  | .Done => (k, none)
  | .Failed _ => ({ k with state := .ReadyToCopy }, none)

/-- Method `KeyboardHalfView.Update`.
Modelled from the spec: the method is not in the embedded files; a copy completion moves
`Copying` to `Done`, an error moves `Copying` and `AwaitingMount` to `Failed`, a
mount-completed event with mount points moves `AwaitingMount` to `ReadyToCopy`, and a
workflow ignores the events that are not for it. -/
def KeyboardHalfView.Update (k : KeyboardHalfView) (msg : Msg DeviceMsg) :
    KeyboardHalfView × Option FlashTask :=
  match msg with
  | .FileCopiedMsg =>
    if k.state = .Copying then ({ k with state := .Done }, none) else (k, none)
  | .error e =>
    if k.state = .Copying ∨ k.state = .AwaitingMount then
      ({ k with state := .Failed e.Error }, none)
    else (k, none)
  | .other (.deviceConfirmed role d) =>
    if role = k.role ∧ k.state = .AwaitingDevice then ({ k with device := some d }, none)
    else (k, none)
  | .other (.mountCompleted role d) =>
    if role = k.role ∧ k.state = .AwaitingMount ∧ d.MountPoints ≠ [] then
      ({ k with device := some d, state := .ReadyToCopy }, none)
    else (k, none)
  | _ => (k, none)

/-- Method `KeyboardHalfView.SetIsSelected`.
Modelled from the spec: the method is not in the embedded files; the view distinguishes the
focused half, so a half records whether it is the focused one. -/
def KeyboardHalfView.SetIsSelected (k : KeyboardHalfView) (isSelected : Bool) :
    KeyboardHalfView :=
  { k with isSelected := isSelected }

/-- Method `KeyboardHalfView.CanUnselect`.
Modelled from the spec: the method is not in the embedded files; `unselectable-safe()` is
true in every state except `Copying` and `AwaitingMount`. -/
def KeyboardHalfView.CanUnselect (k : KeyboardHalfView) : Bool :=
  k.state ≠ .Copying && k.state ≠ .AwaitingMount

/-- The struct `BlockDeviceCmdsView`.
Modelled from the spec: the struct is not in the embedded files; block-device discovery
maintains the current set of known devices. -/
structure BlockDeviceCmdsView where
  devices : List BlockDevice
  deriving DecidableEq, Repr

/-- Method `BlockDeviceCmdsView.Update`.
Modelled from the spec: the method is not in the embedded files; a discovery-changed event
supersedes the snapshot wholesale and the next poll is scheduled. -/
def BlockDeviceCmdsView.Update (b : BlockDeviceCmdsView) (msg : Msg DeviceMsg) :
    BlockDeviceCmdsView × Option FlashTask :=
  match msg with
  | .other (.discoveryChanged devices) => ({ devices := devices }, some .poll)
  | _ => (b, none)

/-- The sub-views of this section, as a `Views`. -/
def specViews : Views BlockDeviceCmdsView KeyboardHalfView DeviceMsg FlashTask where
  blockDeviceUpdate := BlockDeviceCmdsView.Update
  Update := KeyboardHalfView.Update
  NextStep := KeyboardHalfView.NextStep
  SetIsSelected := KeyboardHalfView.SetIsSelected
  CanUnselect := KeyboardHalfView.CanUnselect

/-- Function `NewFlashView`, on the sub-views of this section. The fields
`blockDeviceCmdsView` and `selectedKeyboardHalf` are not set by the composite literal: they
are the zero values of their types, given here as `zeroView` and `zeroRole`. -/
def NewFlashView (zeroView : BlockDeviceCmdsView) (zeroRole : KeyboardHalfRole)
    (centralBootloaderFile peripheralBootloaderFile : String)
    (centralMountPoint peripheralMountPoint : Option String) (dryRun : Bool) :
    FlashView BlockDeviceCmdsView KeyboardHalfView :=
  { blockDeviceCmdsView := zeroView
    centralKeyboardHalfView :=
      NewKeyboardHalfView .Central centralBootloaderFile centralMountPoint dryRun
    peripheralKeyboardHalfView :=
      NewKeyboardHalfView .Peripheral peripheralBootloaderFile peripheralMountPoint dryRun
    selectedKeyboardHalf := zeroRole
    dryRun := dryRun }

/-- A coordinator state in which the central half is copying and has the focus (the spec's
scenario C): both halves were created with a mount point, and the central half was advanced
twice. -/
def copyingCentral : FlashView BlockDeviceCmdsView KeyboardHalfView :=
  let f := NewFlashView { devices := [] } .Central "left.uf2" "right.uf2"
    (some "/mnt/left") (some "/mnt/right") false
  let f := (f.Update specViews (.KeyMsg "enter")).1
  (f.Update specViews (.KeyMsg "enter")).1

/-- A `files.CopyFile` that fails with `err` whatever the file system (here a count of the
calls made) holds. -/
def failingCopyFile (err : GoError) : String → String → Nat → Option GoError × Nat :=
  fun _ _ calls => (some err, calls + 1)

/-- The flags of `flash --left left.uf2 --right right.uf2`. -/
def leftRightFlags : FlashFlags :=
  { leftBootloaderFile := "left.uf2", rightBootloaderFile := "right.uf2"
    leftAndRightBootloaderFile := "", leftAndRightBootloaderZip := ""
    leftControllerMountPoint := "", rightControllerMountPoint := "", dryRun := false }

/-- The flags of `flash --left-and-right-zip firmware.zip`. -/
def zipFlags : FlashFlags :=
  { leftBootloaderFile := "", rightBootloaderFile := ""
    leftAndRightBootloaderFile := "", leftAndRightBootloaderZip := "firmware.zip"
    leftControllerMountPoint := "", rightControllerMountPoint := "", dryRun := false }

/-- A machine on which `left.uf2` does not exist; the archive, were one given, holds one
file for each half, and the program would end without an error. -/
def missingLeftEnv : RunEnv where
  GetFilesWithNameContaining := fun dir name => .ok [dir ++ "/" ++ name ++ ".uf2"]
  statIsNotExist := fun path => path = "left.uf2"
  runProgram := fun _ => none

/-- A machine on which every file exists, the archive holds one file for each half, and
the program ends with the error `result`. -/
def healthyEnv (result : Option GoError) : RunEnv where
  GetFilesWithNameContaining := fun dir name => .ok [dir ++ "/" ++ name ++ ".uf2"]
  statIsNotExist := fun _ => false
  runProgram := fun _ => result

/-! ## Lemmas on `FlashView.Update` -/

/-- The scan of `containsChars` finds exactly the contiguous sublists. -/
theorem containsChars_iff_infix (sub s : List Char) :
    containsChars sub s = true ↔ sub <:+: s := by
  induction s with
  | nil => simp [containsChars, List.isEmpty_iff]
  | cons c rest ih =>
    simp only [containsChars, Bool.or_eq_true, ih, List.infix_cons_iff,
      List.isPrefixOf_iff_prefix]

section Lemmas

variable (V : Views B K μ κ) (f : FlashView B K)

theorem fanOut_fst (msg : Msg μ) :
    (FlashView.Update.fanOut V f msg).1 =
      { blockDeviceCmdsView := (V.blockDeviceUpdate f.blockDeviceCmdsView msg).1
        centralKeyboardHalfView := (V.Update f.centralKeyboardHalfView msg).1
        peripheralKeyboardHalfView := (V.Update f.peripheralKeyboardHalfView msg).1
        selectedKeyboardHalf := f.selectedKeyboardHalf
        dryRun := f.dryRun } := rfl

theorem updateKeyboardHalfIsSelected_selected :
    (f.updateKeyboardHalfIsSelected V).selectedKeyboardHalf = f.selectedKeyboardHalf := by
  unfold FlashView.updateKeyboardHalfIsSelected
  split <;> rfl

theorem nextStep_selected (cmds : List (Option κ)) :
    (FlashView.Update.nextStep V f cmds).1.selectedKeyboardHalf = f.selectedKeyboardHalf := by
  unfold FlashView.Update.nextStep
  split <;> rfl

theorem toggle_ne (r : KeyboardHalfRole) : r.Toggle ≠ r := by
  cases r <;> simp [KeyboardHalfRole.Toggle]

/-- The type switch on an advance trigger. -/
theorem dispatch_of_isAdvance (cmds : List (Option κ)) (msg : Msg μ)
    (h : msg.isAdvance = true) :
    FlashView.Update.dispatch V f cmds msg =
      .fallsThrough (FlashView.Update.nextStep V f cmds).1
        (FlashView.Update.nextStep V f cmds).2 := by
  cases msg with
  | KeyMsg s =>
    have hs : s = "enter" := by simpa [Msg.isAdvance] using h
    subst hs
    simp [FlashView.Update.dispatch]
  | NextStepMsg => rfl
  | FileCopiedMsg => simp [Msg.isAdvance] at h
  | error e => simp [Msg.isAdvance] at h
  | other m => simp [Msg.isAdvance] at h

/-- The type switch on the key "q" and on an error. -/
theorem dispatch_of_endsUpdate (cmds : List (Option κ)) (msg : Msg μ)
    (h : msg.endsUpdate = true) :
    FlashView.Update.dispatch V f cmds msg = .returned f .Quit := by
  cases msg with
  | KeyMsg s =>
    have hs : s = "q" := by simpa [Msg.endsUpdate] using h
    subst hs
    simp [FlashView.Update.dispatch]
  | NextStepMsg => simp [Msg.endsUpdate] at h
  | FileCopiedMsg => simp [Msg.endsUpdate] at h
  | error e => rfl
  | other m => simp [Msg.endsUpdate] at h

/-- The type switch on the keys "h" and "l". -/
theorem dispatch_of_isToggleKey (cmds : List (Option κ)) (msg : Msg μ)
    (h : msg.isToggleKey = true) :
    FlashView.Update.dispatch V f cmds msg =
      .fallsThrough
        (if f.CanToggleKeyboardHalf V then
          { f with selectedKeyboardHalf := f.selectedKeyboardHalf.Toggle }
        else f) cmds := by
  cases msg with
  | KeyMsg s =>
    have hs : s = "h" ∨ s = "l" := by simpa [Msg.isToggleKey] using h
    rcases hs with hs | hs <;> subst hs <;>
      by_cases hc : f.CanToggleKeyboardHalf V = true <;>
      simp [FlashView.Update.dispatch, hc]
  | NextStepMsg => simp [Msg.isToggleKey] at h
  | FileCopiedMsg => simp [Msg.isToggleKey] at h
  | error e => simp [Msg.isToggleKey] at h
  | other m => simp [Msg.isToggleKey] at h

/-- The type switch on every other message. -/
theorem dispatch_of_plain (cmds : List (Option κ)) (msg : Msg μ)
    (ha : msg.isAdvance = false) (he : msg.endsUpdate = false)
    (ht : msg.isToggleKey = false) :
    FlashView.Update.dispatch V f cmds msg = .fallsThrough f cmds := by
  cases msg with
  | KeyMsg s =>
    simp only [Msg.isAdvance, Msg.endsUpdate, Msg.isToggleKey, decide_eq_false_iff_not,
      Bool.or_eq_false_iff] at ha he ht
    simp [FlashView.Update.dispatch, ha, he, ht.1, ht.2]
  | NextStepMsg => simp [Msg.isAdvance] at ha
  | FileCopiedMsg => rfl
  | error e => simp [Msg.endsUpdate] at he
  | other m => rfl

theorem update_of_isAdvance (msg : Msg μ) (h : msg.isAdvance = true) :
    f.Update V msg =
      (((FlashView.Update.nextStep V (FlashView.Update.fanOut V f msg).1
          (FlashView.Update.fanOut V f msg).2).1).updateKeyboardHalfIsSelected V,
        .Batch (FlashView.Update.nextStep V (FlashView.Update.fanOut V f msg).1
          (FlashView.Update.fanOut V f msg).2).2) := by
  simp only [FlashView.Update, dispatch_of_isAdvance V _ _ msg h]

theorem update_of_endsUpdate (msg : Msg μ) (h : msg.endsUpdate = true) :
    f.Update V msg = ((FlashView.Update.fanOut V f msg).1, .Quit) := by
  simp only [FlashView.Update, dispatch_of_endsUpdate V _ _ msg h]

theorem update_of_isToggleKey (msg : Msg μ) (h : msg.isToggleKey = true) :
    f.Update V msg =
      ((if (FlashView.Update.fanOut V f msg).1.CanToggleKeyboardHalf V then
          { (FlashView.Update.fanOut V f msg).1 with
            selectedKeyboardHalf := f.selectedKeyboardHalf.Toggle }
        else (FlashView.Update.fanOut V f msg).1).updateKeyboardHalfIsSelected V,
        .Batch (FlashView.Update.fanOut V f msg).2) := by
  simp only [FlashView.Update, dispatch_of_isToggleKey V _ _ msg h]
  rfl

theorem update_of_plain (msg : Msg μ)
    (ha : msg.isAdvance = false) (he : msg.endsUpdate = false)
    (ht : msg.isToggleKey = false) :
    f.Update V msg =
      (((FlashView.Update.fanOut V f msg).1).updateKeyboardHalfIsSelected V,
        .Batch (FlashView.Update.fanOut V f msg).2) := by
  simp only [FlashView.Update, dispatch_of_plain V _ _ msg ha he ht]

/-- At most one of the three classes of messages applies. -/
theorem msg_classes (msg : Msg μ) :
    (msg.isAdvance = true ∧ msg.endsUpdate = false ∧ msg.isToggleKey = false) ∨
    (msg.isAdvance = false ∧ msg.endsUpdate = true ∧ msg.isToggleKey = false) ∨
    (msg.isAdvance = false ∧ msg.endsUpdate = false ∧ msg.isToggleKey = true) ∨
    (msg.isAdvance = false ∧ msg.endsUpdate = false ∧ msg.isToggleKey = false) := by
  cases msg with
  | KeyMsg s =>
    by_cases hq : s = "q"
    · subst hq; simp [Msg.isAdvance, Msg.endsUpdate, Msg.isToggleKey]
    by_cases hh : s = "h"
    · subst hh; simp [Msg.isAdvance, Msg.endsUpdate, Msg.isToggleKey]
    by_cases hl : s = "l"
    · subst hl; simp [Msg.isAdvance, Msg.endsUpdate, Msg.isToggleKey]
    by_cases he : s = "enter"
    · subst he; simp [Msg.isAdvance, Msg.endsUpdate, Msg.isToggleKey]
    · simp [Msg.isAdvance, Msg.endsUpdate, Msg.isToggleKey, hq, hh, hl, he]
  | NextStepMsg => simp [Msg.isAdvance, Msg.endsUpdate, Msg.isToggleKey]
  | FileCopiedMsg => simp [Msg.isAdvance, Msg.endsUpdate, Msg.isToggleKey]
  | error e => simp [Msg.isAdvance, Msg.endsUpdate, Msg.isToggleKey]
  | other m => simp [Msg.isAdvance, Msg.endsUpdate, Msg.isToggleKey]

/-- The focus after `Update`, for every message. -/
theorem update_selected (msg : Msg μ) :
    (f.Update V msg).1.selectedKeyboardHalf =
      if msg.isToggleKey && (FlashView.Update.fanOut V f msg).1.CanToggleKeyboardHalf V then
        f.selectedKeyboardHalf.Toggle
      else f.selectedKeyboardHalf := by
  rcases msg_classes msg with ⟨ha, _, ht⟩ | ⟨_, he, ht⟩ | ⟨_, _, ht⟩ | ⟨ha, he, ht⟩
  · rw [update_of_isAdvance V f msg ha]
    simp [ht, updateKeyboardHalfIsSelected_selected, nextStep_selected, fanOut_fst]
  · rw [update_of_endsUpdate V f msg he]
    simp [ht, fanOut_fst]
  · rw [update_of_isToggleKey V f msg ht]
    by_cases hc : (FlashView.Update.fanOut V f msg).1.CanToggleKeyboardHalf V = true
    · simp [ht, hc, updateKeyboardHalfIsSelected_selected]
    · simp only [ht, hc, updateKeyboardHalfIsSelected_selected, Bool.and_false, if_false,
        Bool.false_eq_true, Bool.true_and]
      rfl
  · rw [update_of_plain V f msg ha he ht]
    simp [ht, updateKeyboardHalfIsSelected_selected, fanOut_fst]

/-- The sub-views of the `FlashView` that `Update` returns, for every message. -/
theorem update_sub_views (msg : Msg μ) :
    (f.Update V msg).1.blockDeviceCmdsView =
        (V.blockDeviceUpdate f.blockDeviceCmdsView msg).1 ∧
    (f.Update V msg).1.centralKeyboardHalfView =
        (if msg.endsUpdate then (V.Update f.centralKeyboardHalfView msg).1
        else V.SetIsSelected
          (if msg.isAdvance && decide (f.selectedKeyboardHalf = .Central) then
            (V.NextStep (V.Update f.centralKeyboardHalfView msg).1).1
          else (V.Update f.centralKeyboardHalfView msg).1)
          (decide ((f.Update V msg).1.selectedKeyboardHalf = .Central))) ∧
    (f.Update V msg).1.peripheralKeyboardHalfView =
        (if msg.endsUpdate then (V.Update f.peripheralKeyboardHalfView msg).1
        else V.SetIsSelected
          (if msg.isAdvance && decide (f.selectedKeyboardHalf ≠ .Central) then
            (V.NextStep (V.Update f.peripheralKeyboardHalfView msg).1).1
          else (V.Update f.peripheralKeyboardHalfView msg).1)
          (decide ((f.Update V msg).1.selectedKeyboardHalf ≠ .Central))) := by
  rcases msg_classes msg with ⟨ha, he, ht⟩ | ⟨ha, he, ht⟩ | ⟨ha, he, ht⟩ | ⟨ha, he, ht⟩
  · rw [update_of_isAdvance V f msg ha, ha, he]
    by_cases hsel : f.selectedKeyboardHalf = .Central <;>
      simp [FlashView.updateKeyboardHalfIsSelected, FlashView.Update.nextStep, fanOut_fst, hsel]
  · rw [update_of_endsUpdate V f msg he, he]
    simp [fanOut_fst]
  · rw [update_of_isToggleKey V f msg ht, ha, he]
    by_cases hc : (FlashView.Update.fanOut V f msg).1.CanToggleKeyboardHalf V = true
    · rw [if_pos hc]
      cases hsel : f.selectedKeyboardHalf <;>
        simp [FlashView.updateKeyboardHalfIsSelected, fanOut_fst, hsel,
          KeyboardHalfRole.Toggle]
    · rw [if_neg hc]
      cases hsel : f.selectedKeyboardHalf <;>
        simp [FlashView.updateKeyboardHalfIsSelected, fanOut_fst, hsel]
  · rw [update_of_plain V f msg ha he ht, ha, he]
    by_cases hsel : f.selectedKeyboardHalf = .Central <;>
      simp [FlashView.updateKeyboardHalfIsSelected, fanOut_fst, hsel]

end Lemmas


/-! ## The focus -/

/-- C1: on the key "h" or "l", `FlashView.Update` evaluates `CanToggleKeyboardHalf` on the
two halves as their own `Update` of that key left them, and the focus it returns is
`f.selectedKeyboardHalf.Toggle()` if both report `CanUnselect()` and the unchanged
`f.selectedKeyboardHalf` otherwise: the focus stays exactly when a half reports `false`. -/
theorem toggle_key_switches_focus_iff_both_can_unselect
    (V : Views B K μ κ) (f : FlashView B K) (s : String) (hs : s = "h" ∨ s = "l") :
    (FlashView.Update.fanOut V f (.KeyMsg s)).1.CanToggleKeyboardHalf V =
        (V.CanUnselect (V.Update f.centralKeyboardHalfView (.KeyMsg s)).1 &&
          V.CanUnselect (V.Update f.peripheralKeyboardHalfView (.KeyMsg s)).1) ∧
    (f.Update V (.KeyMsg s)).1.selectedKeyboardHalf =
        (if V.CanUnselect (V.Update f.centralKeyboardHalfView (.KeyMsg s)).1 = true ∧
            V.CanUnselect (V.Update f.peripheralKeyboardHalfView (.KeyMsg s)).1 = true then
          f.selectedKeyboardHalf.Toggle
        else f.selectedKeyboardHalf) ∧
    ((f.Update V (.KeyMsg s)).1.selectedKeyboardHalf = f.selectedKeyboardHalf ↔
      V.CanUnselect (V.Update f.centralKeyboardHalfView (.KeyMsg s)).1 = false ∨
        V.CanUnselect (V.Update f.peripheralKeyboardHalfView (.KeyMsg s)).1 = false) := by
  have ht : (Msg.KeyMsg s : Msg μ).isToggleKey = true := by
    rcases hs with hs | hs <;> subst hs <;> simp [Msg.isToggleKey]
  have hsel := update_selected V f (.KeyMsg s)
  rw [ht] at hsel
  have hcan : (FlashView.Update.fanOut V f (.KeyMsg s)).1.CanToggleKeyboardHalf V =
      (V.CanUnselect (V.Update f.centralKeyboardHalfView (.KeyMsg s)).1 &&
        V.CanUnselect (V.Update f.peripheralKeyboardHalfView (.KeyMsg s)).1) := rfl
  rw [hcan] at hsel
  refine ⟨hcan, ?_, ?_⟩
  · rw [hsel]
    simp
  · rw [hsel]
    cases hc : V.CanUnselect (V.Update f.centralKeyboardHalfView (.KeyMsg s)).1 <;>
      cases hp : V.CanUnselect (V.Update f.peripheralKeyboardHalfView (.KeyMsg s)).1 <;>
      simp [toggle_ne]

/-- The statement of C1 on the spec's scenario C: the central half is copying, so the key
"h" leaves the focus on the central half. -/
theorem toggle_key_switches_focus_iff_both_can_unselect_witness :
    (("h" : String) = "h" ∨ ("h" : String) = "l") ∧
    specViews.CanUnselect
      (specViews.Update copyingCentral.centralKeyboardHalfView (.KeyMsg "h")).1 = false ∧
    (copyingCentral.Update specViews (.KeyMsg "h")).1.selectedKeyboardHalf =
      copyingCentral.selectedKeyboardHalf :=
  ⟨Or.inl rfl, by decide,
    (toggle_key_switches_focus_iff_both_can_unselect specViews copyingCentral "h"
      (Or.inl rfl)).2.2.mpr (Or.inl (by decide))⟩

/-- C6: on the key "q", whatever the two halves report, `FlashView.Update` returns the
`Quit` command and the focus of the returned `FlashView` is the one it had. -/
theorem quit_key_quits_in_every_state (V : Views B K μ κ) (f : FlashView B K) :
    (f.Update V (.KeyMsg "q")).2 = .Quit ∧
    (f.Update V (.KeyMsg "q")).1.selectedKeyboardHalf = f.selectedKeyboardHalf := by
  have h := update_of_endsUpdate V f (.KeyMsg "q") (by simp [Msg.endsUpdate])
  rw [h]
  exact ⟨rfl, rfl⟩

/-- C10: for every message, if the focus `FlashView.Update` returns differs from the focus
it was given, then the message is the key "h" or "l" and both halves, after their own
`Update` of the message, report `CanUnselect()`; every message other than these two keys
leaves the focus unchanged. -/
theorem focus_changes_only_when_both_halves_can_unselect
    (V : Views B K μ κ) (f : FlashView B K) (msg : Msg μ) :
    ((f.Update V msg).1.selectedKeyboardHalf ≠ f.selectedKeyboardHalf →
      (msg = .KeyMsg "h" ∨ msg = .KeyMsg "l") ∧
      V.CanUnselect (V.Update f.centralKeyboardHalfView msg).1 = true ∧
      V.CanUnselect (V.Update f.peripheralKeyboardHalfView msg).1 = true) ∧
    (msg ≠ .KeyMsg "h" → msg ≠ .KeyMsg "l" →
      (f.Update V msg).1.selectedKeyboardHalf = f.selectedKeyboardHalf) := by
  have hsel := update_selected V f msg
  have hcan : (FlashView.Update.fanOut V f msg).1.CanToggleKeyboardHalf V =
      (V.CanUnselect (V.Update f.centralKeyboardHalfView msg).1 &&
        V.CanUnselect (V.Update f.peripheralKeyboardHalfView msg).1) := rfl
  have hkey : msg.isToggleKey = true → msg = .KeyMsg "h" ∨ msg = .KeyMsg "l" := by
    intro h
    cases msg with
    | KeyMsg s =>
      have hs : s = "h" ∨ s = "l" := by simpa [Msg.isToggleKey] using h
      rcases hs with hs | hs
      · exact Or.inl (by rw [hs])
      · exact Or.inr (by rw [hs])
    | NextStepMsg => simp [Msg.isToggleKey] at h
    | FileCopiedMsg => simp [Msg.isToggleKey] at h
    | error e => simp [Msg.isToggleKey] at h
    | other m => simp [Msg.isToggleKey] at h
  rw [hcan] at hsel
  constructor
  · intro hne
    cases ht : msg.isToggleKey with
    | false =>
      rw [ht] at hsel
      exact absurd (by simpa using hsel) hne
    | true =>
      rw [ht] at hsel
      cases hc : V.CanUnselect (V.Update f.centralKeyboardHalfView msg).1 with
      | false =>
        rw [hc] at hsel
        exact absurd (by simpa using hsel) hne
      | true =>
        cases hp : V.CanUnselect (V.Update f.peripheralKeyboardHalfView msg).1 with
        | false =>
          rw [hc, hp] at hsel
          exact absurd (by simpa using hsel) hne
        | true => exact ⟨hkey ht, rfl, rfl⟩
  · intro hh hl
    cases ht : msg.isToggleKey with
    | false =>
      rw [ht] at hsel
      simpa using hsel
    | true =>
      rcases hkey ht with h | h
      · exact absurd h hh
      · exact absurd h hl

/-- The statement of C10 on a run: both halves of a new coordinator can be unselected and
the key "l" moves the focus; the completion of a copy does not. -/
theorem focus_changes_only_when_both_halves_can_unselect_witness :
    (((NewFlashView ⟨[]⟩ .Central "left.uf2" "right.uf2" none none false).Update specViews
        (.KeyMsg "l")).1.selectedKeyboardHalf ≠ KeyboardHalfRole.Central) ∧
    (specViews.CanUnselect (specViews.Update
      (NewFlashView ⟨[]⟩ .Central "left.uf2" "right.uf2" none none false).centralKeyboardHalfView
      (.KeyMsg "l")).1 = true) ∧
    (copyingCentral.Update specViews .FileCopiedMsg).1.selectedKeyboardHalf =
      copyingCentral.selectedKeyboardHalf :=
  ⟨by decide,
    ((focus_changes_only_when_both_halves_can_unselect specViews
      (NewFlashView ⟨[]⟩ .Central "left.uf2" "right.uf2" none none false)
      (.KeyMsg "l")).1 (by decide)).2.1,
    (focus_changes_only_when_both_halves_can_unselect specViews copyingCentral
      .FileCopiedMsg).2 (by decide) (by decide)⟩

/-! ## The fan-out and the advance -/

/-- C7: for every state and every message, the device view, the peripheral half and the
central half of the `FlashView` that `Update` returns are the models their own `Update` of
that message returned, with `NextStep` applied to the focused half on an advance trigger
and `SetIsSelected` applied to both halves unless `Update` quits; and with sub-views that
log the messages their `Update` receives, each of the three logs grows by exactly that
message, also when `Update` quits. -/
theorem update_fans_message_out_to_every_sub_view (V : Views B K μ κ) :
    (∀ (f : FlashView B K) (msg : Msg μ),
      (f.Update V msg).1.blockDeviceCmdsView =
          (V.blockDeviceUpdate f.blockDeviceCmdsView msg).1 ∧
      (f.Update V msg).1.centralKeyboardHalfView =
          (if msg.endsUpdate then (V.Update f.centralKeyboardHalfView msg).1
          else V.SetIsSelected
            (if msg.isAdvance && decide (f.selectedKeyboardHalf = .Central) then
              (V.NextStep (V.Update f.centralKeyboardHalfView msg).1).1
            else (V.Update f.centralKeyboardHalfView msg).1)
            (decide ((f.Update V msg).1.selectedKeyboardHalf = .Central))) ∧
      (f.Update V msg).1.peripheralKeyboardHalfView =
          (if msg.endsUpdate then (V.Update f.peripheralKeyboardHalfView msg).1
          else V.SetIsSelected
            (if msg.isAdvance && decide (f.selectedKeyboardHalf ≠ .Central) then
              (V.NextStep (V.Update f.peripheralKeyboardHalfView msg).1).1
            else (V.Update f.peripheralKeyboardHalfView msg).1)
            (decide ((f.Update V msg).1.selectedKeyboardHalf ≠ .Central)))) ∧
    (∀ (g : FlashView (B × List (Msg μ)) (K × List (Msg μ))) (msg : Msg μ),
      ((g.Update V.logging msg).1.blockDeviceCmdsView).2 =
          g.blockDeviceCmdsView.2 ++ [msg] ∧
      ((g.Update V.logging msg).1.centralKeyboardHalfView).2 =
          g.centralKeyboardHalfView.2 ++ [msg] ∧
      ((g.Update V.logging msg).1.peripheralKeyboardHalfView).2 =
          g.peripheralKeyboardHalfView.2 ++ [msg]) := by
  refine ⟨fun f msg => update_sub_views V f msg, fun g msg => ?_⟩
  obtain ⟨hb, hc, hp⟩ := update_sub_views V.logging g msg
  rw [hb, hc, hp]
  refine ⟨rfl, ?_, ?_⟩
  · cases msg.endsUpdate <;> cases msg.isAdvance <;>
      cases decide (g.selectedKeyboardHalf = .Central) <;> rfl
  · cases msg.endsUpdate <;> cases msg.isAdvance <;>
      cases decide (g.selectedKeyboardHalf ≠ .Central) <;> rfl

/-- C2: on the key "enter" and on `NextStepMsg`, the type switch of `FlashView.Update` calls
`NextStep` on the half whose role is `selectedKeyboardHalf` and on no other: at the end of
the switch the focused half is `NextStep` of its own `Update(msg)` and the other half is
just its own `Update(msg)`; the returned `FlashView` holds these two with the focus mark
set by `SetIsSelected`, and the batch holds the one command `NextStep` returned, after the
commands of the fan-out. -/
theorem advance_calls_NextStep_on_the_selected_half_only
    (V : Views B K μ κ) (f : FlashView B K) (msg : Msg μ)
    (hmsg : msg = .KeyMsg "enter" ∨ msg = .NextStepMsg) :
    (f.selectedKeyboardHalf = .Central →
      FlashView.Update.dispatch V (FlashView.Update.fanOut V f msg).1
          (FlashView.Update.fanOut V f msg).2 msg =
        .fallsThrough
          { blockDeviceCmdsView := (V.blockDeviceUpdate f.blockDeviceCmdsView msg).1
            centralKeyboardHalfView :=
              (V.NextStep (V.Update f.centralKeyboardHalfView msg).1).1
            peripheralKeyboardHalfView := (V.Update f.peripheralKeyboardHalfView msg).1
            selectedKeyboardHalf := .Central
            dryRun := f.dryRun }
          ((FlashView.Update.fanOut V f msg).2 ++
            [(V.NextStep (V.Update f.centralKeyboardHalfView msg).1).2]) ∧
      f.Update V msg =
        ({ blockDeviceCmdsView := (V.blockDeviceUpdate f.blockDeviceCmdsView msg).1
           centralKeyboardHalfView :=
             V.SetIsSelected (V.NextStep (V.Update f.centralKeyboardHalfView msg).1).1 true
           peripheralKeyboardHalfView :=
             V.SetIsSelected (V.Update f.peripheralKeyboardHalfView msg).1 false
           selectedKeyboardHalf := .Central
           dryRun := f.dryRun },
          .Batch ((FlashView.Update.fanOut V f msg).2 ++
            [(V.NextStep (V.Update f.centralKeyboardHalfView msg).1).2]))) ∧
    (f.selectedKeyboardHalf = .Peripheral →
      FlashView.Update.dispatch V (FlashView.Update.fanOut V f msg).1
          (FlashView.Update.fanOut V f msg).2 msg =
        .fallsThrough
          { blockDeviceCmdsView := (V.blockDeviceUpdate f.blockDeviceCmdsView msg).1
            centralKeyboardHalfView := (V.Update f.centralKeyboardHalfView msg).1
            peripheralKeyboardHalfView :=
              (V.NextStep (V.Update f.peripheralKeyboardHalfView msg).1).1
            selectedKeyboardHalf := .Peripheral
            dryRun := f.dryRun }
          ((FlashView.Update.fanOut V f msg).2 ++
            [(V.NextStep (V.Update f.peripheralKeyboardHalfView msg).1).2]) ∧
      f.Update V msg =
        ({ blockDeviceCmdsView := (V.blockDeviceUpdate f.blockDeviceCmdsView msg).1
           centralKeyboardHalfView :=
             V.SetIsSelected (V.Update f.centralKeyboardHalfView msg).1 false
           peripheralKeyboardHalfView :=
             V.SetIsSelected (V.NextStep (V.Update f.peripheralKeyboardHalfView msg).1).1 true
           selectedKeyboardHalf := .Peripheral
           dryRun := f.dryRun },
          .Batch ((FlashView.Update.fanOut V f msg).2 ++
            [(V.NextStep (V.Update f.peripheralKeyboardHalfView msg).1).2]))) := by
  have ha : msg.isAdvance = true := by
    rcases hmsg with h | h <;> subst h <;> simp [Msg.isAdvance]
  rw [update_of_isAdvance V f msg ha, dispatch_of_isAdvance V _ _ msg ha]
  constructor <;> intro hsel <;>
    simp [FlashView.updateKeyboardHalfIsSelected, FlashView.Update.nextStep, fanOut_fst, hsel]

/-- The statement of C2 on a run: in a new coordinator with the focus on the central half,
"enter" advances the central half to `ReadyToCopy` and leaves the peripheral half in
`AwaitingDevice`. -/
theorem advance_calls_NextStep_on_the_selected_half_only_witness :
    ((Msg.KeyMsg "enter" : Msg DeviceMsg) = .KeyMsg "enter" ∨
      (Msg.KeyMsg "enter" : Msg DeviceMsg) = .NextStepMsg) ∧
    ((NewFlashView ⟨[]⟩ .Central "left.uf2" "right.uf2" (some "/mnt/left")
        (some "/mnt/right") false).Update specViews (.KeyMsg "enter")).1 =
      { blockDeviceCmdsView := ⟨[]⟩
        centralKeyboardHalfView :=
          { role := .Central, bootloaderFile := "left.uf2", mountPoint := some "/mnt/left"
            dryRun := false, state := .ReadyToCopy, device := none, isSelected := true }
        peripheralKeyboardHalfView :=
          { role := .Peripheral, bootloaderFile := "right.uf2", mountPoint := some "/mnt/right"
            dryRun := false, state := .AwaitingDevice, device := none, isSelected := false }
        selectedKeyboardHalf := .Central
        dryRun := false } :=
  ⟨Or.inl rfl,
    (congrArg Prod.fst
      ((advance_calls_NextStep_on_the_selected_half_only specViews
        (NewFlashView ⟨[]⟩ .Central "left.uf2" "right.uf2" (some "/mnt/left")
          (some "/mnt/right") false) (.KeyMsg "enter") (Or.inl rfl)).1 rfl).2).trans
      (by decide)⟩

/-! ## The copy command -/

/-- C4: for every source, destination, file-system state and every behaviour of
`files.CopyFile`, the command of `CopyFileCmd(src, dest, true)` yields `FileCopiedMsg{}` and
leaves the file system as it was; its result is the same for any two behaviours of
`files.CopyFile`. -/
theorem dry_run_copy_succeeds_without_copying {σ : Type}
    (CopyFile : String → String → σ → Option GoError × σ) (src dest : String) (fs : σ) :
    (CopyFileCmd CopyFile src dest true fs : Msg μ × σ) = (.FileCopiedMsg, fs) ∧
    ∀ CopyFile2 : String → String → σ → Option GoError × σ,
      (CopyFileCmd CopyFile2 src dest true fs : Msg μ × σ) =
        CopyFileCmd CopyFile src dest true fs :=
  ⟨rfl, fun _ => rfl⟩

/-- C5: for every source, destination and outcome of `files.CopyFile`, the command of
`CopyFileCmd(src, dest, false)` yields `FileCopiedMsg{}` if and only if the copy returned no
error or an error whose text contains "input/output error"; for every other error it yields
the error `errors.Join` builds from "error copying file from src to dest" and the original
error, which unwraps to the original error. The file system is left as the copy left it. -/
theorem copy_succeeds_iff_no_error_or_input_output_error {σ : Type}
    (CopyFile : String → String → σ → Option GoError × σ) (src dest : String) (fs : σ) :
    ((CopyFileCmd CopyFile src dest false fs : Msg μ × σ).1 = .FileCopiedMsg ↔
      (CopyFile src dest fs).1 = none ∨
        ∃ err, (CopyFile src dest fs).1 = some err ∧
          strings.Contains err.Error "input/output error" = true) ∧
    (∀ err, (CopyFile src dest fs).1 = some err →
      strings.Contains err.Error "input/output error" = false →
      (CopyFileCmd CopyFile src dest false fs : Msg μ × σ).1 =
          .error (.join (.leaf ("error copying file from " ++ src ++ " to " ++ dest)) err) ∧
        err ∈ (GoError.join
          (.leaf ("error copying file from " ++ src ++ " to " ++ dest)) err).Unwrap) ∧
    (CopyFileCmd CopyFile src dest false fs : Msg μ × σ).2 = (CopyFile src dest fs).2 := by
  unfold CopyFileCmd
  cases hout : (CopyFile src dest fs).1 with
  | none => simp [hout]
  | some err =>
    cases hc : strings.Contains err.Error "input/output error" <;>
      simp [hout, hc, GoError.Unwrap]

/-- The statement of C5 on two copies: the error of a vanished device is a success, a
permission error is an error message around the original error. -/
theorem copy_succeeds_iff_no_error_or_input_output_error_witness :
    (CopyFileCmd (failingCopyFile (.leaf "write /mnt/left/left.uf2: input/output error"))
        "left.uf2" "/mnt/left" false 0 : Msg DeviceMsg × Nat).1 = .FileCopiedMsg ∧
    (CopyFileCmd (failingCopyFile (.leaf "open /mnt/left/left.uf2: permission denied"))
        "left.uf2" "/mnt/left" false 0 : Msg DeviceMsg × Nat).1 =
      .error (.join (.leaf "error copying file from left.uf2 to /mnt/left")
        (.leaf "open /mnt/left/left.uf2: permission denied")) :=
  ⟨(copy_succeeds_iff_no_error_or_input_output_error
      (failingCopyFile (.leaf "write /mnt/left/left.uf2: input/output error"))
      "left.uf2" "/mnt/left" 0).1.mpr (Or.inr ⟨_, rfl, by decide⟩),
    ((copy_succeeds_iff_no_error_or_input_output_error
      (failingCopyFile (.leaf "open /mnt/left/left.uf2: permission denied"))
      "left.uf2" "/mnt/left" 0).2.1 _ rfl (by decide)).1⟩

/-! ## Errors in the coordinator -/

/-- C3, as the claim states it, fails: a copy to `/mnt/left` fails with a permission error,
which is not of the "input/output error" class; `CopyFileCmd` yields an error message, and
`FlashView.Update` on that message returns the `Quit` command, here in a state in which the
central half is copying. -/
theorem copy_error_message_makes_update_quit :
    strings.Contains (GoError.leaf "open /mnt/left/left.uf2: permission denied").Error
      "input/output error" = false ∧
    (copyingCentral.Update specViews
      (CopyFileCmd (failingCopyFile (.leaf "open /mnt/left/left.uf2: permission denied"))
        "left.uf2" "/mnt/left" false 0).1).2 = .Quit := by
  decide

/-- C3, amended: every error message makes `FlashView.Update` quit, whatever its origin. For
every copy that is not a dry run and whose `files.CopyFile` error is not of the
"input/output error" class, the message of `CopyFileCmd` is an error; fed to
`FlashView.Update` it reaches both halves (the returned `FlashView` holds what their own
`Update` of it returned) and `Update` returns the `Quit` command, as it does on every other
error message. -/
theorem every_error_message_makes_update_quit {σ : Type}
    (V : Views B K μ κ) (f : FlashView B K)
    (CopyFile : String → String → σ → Option GoError × σ) (src dest : String) (fs : σ)
    (err : GoError) (hcopy : (CopyFile src dest fs).1 = some err)
    (hclass : strings.Contains err.Error "input/output error" = false) :
    (CopyFileCmd CopyFile src dest false fs : Msg μ × σ).1 =
        .error (.join (.leaf ("error copying file from " ++ src ++ " to " ++ dest)) err) ∧
    (f.Update V (CopyFileCmd CopyFile src dest false fs).1).2 = .Quit ∧
    (f.Update V (CopyFileCmd CopyFile src dest false fs).1).1.centralKeyboardHalfView =
        (V.Update f.centralKeyboardHalfView (CopyFileCmd CopyFile src dest false fs).1).1 ∧
    (f.Update V (CopyFileCmd CopyFile src dest false fs).1).1.peripheralKeyboardHalfView =
        (V.Update f.peripheralKeyboardHalfView (CopyFileCmd CopyFile src dest false fs).1).1 ∧
    ∀ e : GoError, (f.Update V (.error e)).2 = .Quit := by
  have hmsg : (CopyFileCmd CopyFile src dest false fs : Msg μ × σ).1 =
      .error (.join (.leaf ("error copying file from " ++ src ++ " to " ++ dest)) err) := by
    simp [CopyFileCmd, hcopy, hclass]
  have hquit : ∀ e : GoError, f.Update V (.error e) =
      ((FlashView.Update.fanOut V f (.error e)).1, .Quit) :=
    fun e => update_of_endsUpdate V f (.error e) rfl
  rw [hmsg]
  refine ⟨rfl, ?_, ?_, ?_, ?_⟩
  · rw [hquit]
  · rw [hquit]; rfl
  · rw [hquit]; rfl
  · intro e
    rw [hquit]

/-- The statement of the amended C3 on the copy of the counterexample. -/
theorem every_error_message_makes_update_quit_witness :
    (failingCopyFile (.leaf "open /mnt/left/left.uf2: permission denied")
      "left.uf2" "/mnt/left" 0).1 = some (.leaf "open /mnt/left/left.uf2: permission denied") ∧
    strings.Contains (GoError.leaf "open /mnt/left/left.uf2: permission denied").Error
      "input/output error" = false ∧
    (copyingCentral.Update specViews
      (CopyFileCmd (failingCopyFile (.leaf "open /mnt/left/left.uf2: permission denied"))
        "left.uf2" "/mnt/left" false 0).1).1.centralKeyboardHalfView.state =
      .Failed ("error copying file from left.uf2 to /mnt/left\n" ++
        "open /mnt/left/left.uf2: permission denied") :=
  ⟨rfl, by decide,
    (congrArg KeyboardHalfView.state
      (every_error_message_makes_update_quit specViews copyingCentral
        (failingCopyFile (.leaf "open /mnt/left/left.uf2: permission denied"))
        "left.uf2" "/mnt/left" 0 _ rfl (by decide)).2.2.1).trans (by decide)⟩

/-! ## The `flash` command -/

/-- C8: when a zip archive is given and both listings of the extracted files succeed, `run`
goes on to the file-existence checks if and only if exactly one file name contains "left"
and exactly one contains "right", and then with `leftBootloaderFile` and
`rightBootloaderFile` set to these two files; for every other pair of counts `run` returns
an error and `views.NewFlashView` is not called. -/
theorem archive_must_hold_one_left_and_one_right_file
    (env : RunEnv) (flags : FlashFlags) (leftFiles rightFiles : List String)
    (hzip : flags.leftAndRightBootloaderZip ≠ "")
    (hleft : env.GetFilesWithNameContaining "./tmp" "left" = .ok leftFiles)
    (hright : env.GetFilesWithNameContaining "./tmp" "right" = .ok rightFiles) :
    ((∃ r, run.resolve env flags = .ok r) ↔
      leftFiles.length = 1 ∧ rightFiles.length = 1) ∧
    (∀ left right, leftFiles = [left] → rightFiles = [right] →
      run.resolve env flags =
          .ok { leftBootloaderFile := some left
                rightBootloaderFile := some right
                leftControllerMountPoint := nilIfEmpty flags.leftControllerMountPoint
                rightControllerMountPoint := nilIfEmpty flags.rightControllerMountPoint } ∧
        run env flags =
          run.checkAndLaunch env flags.dryRun
            { leftBootloaderFile := some left
              rightBootloaderFile := some right
              leftControllerMountPoint := nilIfEmpty flags.leftControllerMountPoint
              rightControllerMountPoint := nilIfEmpty flags.rightControllerMountPoint }) ∧
    (¬(leftFiles.length = 1 ∧ rightFiles.length = 1) →
      ∃ err, run env flags = .failed err) := by
  have hz : nilIfEmpty flags.leftAndRightBootloaderZip =
      some flags.leftAndRightBootloaderZip := by
    simp [nilIfEmpty, hzip]
  have hres : run.resolve env flags =
      if leftFiles.length ≠ 1 then
        .error (.leaf "found more than one file name containing 'left' in the zip")
      else if rightFiles.length ≠ 1 then
        .error (.leaf "found more than one file name containing 'right' in the zip")
      else
        .ok { leftBootloaderFile := leftFiles[0]?
              rightBootloaderFile := rightFiles[0]?
              leftControllerMountPoint := nilIfEmpty flags.leftControllerMountPoint
              rightControllerMountPoint := nilIfEmpty flags.rightControllerMountPoint } := by
    simp only [run.resolve, hz, hleft, hright]
  refine ⟨?_, ?_, ?_⟩
  · rw [hres]
    by_cases hl : leftFiles.length = 1
    · by_cases hr : rightFiles.length = 1
      · simp [hl, hr]
      · simp [hl, hr]
    · simp [hl]
  · intro left right hl hr
    subst hl hr
    have : run.resolve env flags =
        .ok { leftBootloaderFile := some left
              rightBootloaderFile := some right
              leftControllerMountPoint := nilIfEmpty flags.leftControllerMountPoint
              rightControllerMountPoint := nilIfEmpty flags.rightControllerMountPoint } := by
      rw [hres]
      simp
    refine ⟨this, ?_⟩
    simp only [run, this]
  · intro hne
    by_cases hl : leftFiles.length = 1
    · have hr : rightFiles.length ≠ 1 := fun hr => hne ⟨hl, hr⟩
      have hrun : run env flags =
          .failed (.leaf "found more than one file name containing 'right' in the zip") := by
        simp only [run, hres]
        simp [hl, hr]
      exact ⟨_, hrun⟩
    · have hrun : run env flags =
          .failed (.leaf "found more than one file name containing 'left' in the zip") := by
        simp only [run, hres]
        simp [hl]
      exact ⟨_, hrun⟩

/-- The statement of C8 on an archive with one file for each half: `run` checks the two
extracted files and launches the program on them. -/
theorem archive_must_hold_one_left_and_one_right_file_witness :
    zipFlags.leftAndRightBootloaderZip ≠ "" ∧
    (healthyEnv none).GetFilesWithNameContaining "./tmp" "left" = .ok ["./tmp/left.uf2"] ∧
    (healthyEnv none).GetFilesWithNameContaining "./tmp" "right" = .ok ["./tmp/right.uf2"] ∧
    run (healthyEnv none) zipFlags =
      .launched
        { centralBootloaderFile := "./tmp/left.uf2"
          peripheralBootloaderFile := "./tmp/right.uf2"
          centralMountPoint := none
          peripheralMountPoint := none
          dryRun := false } none :=
  ⟨by decide, rfl, rfl,
    ((archive_must_hold_one_left_and_one_right_file (healthyEnv none) zipFlags
      ["./tmp/left.uf2"] ["./tmp/right.uf2"] (by decide) rfl rfl).2.1
        _ _ rfl rfl).2.trans (by decide)⟩

/-- C9 fails on the code: for `flash --left left.uf2 --right right.uf2` with `left.uf2`
missing, `run` returns the error "Left bootloader file does not exist" and the `Run`
handler of `flashCmd` reports nothing; and where the program was launched, the handler's
outcome is the same whether `run` returned an error or nil. -/
theorem flashCmd_Run_drops_the_error_of_run :
    run missingLeftEnv leftRightFlags =
      .failed (.leaf "Left bootloader file does not exist") ∧
    flashCmd.Run missingLeftEnv leftRightFlags = .completed none none ∧
    (run (healthyEnv (some (.leaf "program was killed"))) leftRightFlags).returnedError =
      some (.leaf "program was killed") ∧
    (run (healthyEnv none) leftRightFlags).returnedError = none ∧
    flashCmd.Run (healthyEnv (some (.leaf "program was killed"))) leftRightFlags =
      flashCmd.Run (healthyEnv none) leftRightFlags := by
  decide

end ZmkFlasher
